import Mathlib

/-!
# Verification of the Green fleet energy-telemetry platform

A shallow embedding, in Lean 4, of the pieces of the Green repository that
its specification talks about: the agent's local re-validation of shutdown
commands, the command dispatcher (issue / poll / result), the telemetry
energy accounting, refresh-token rotation, admin bootstrap, the agent's
bounded offline queue, and agent re-registration.

Python floats are modelled as exact rationals (`ℚ`); `round(x, n)` is
modelled as rounding to `n` decimal digits.  Database rows are modelled as
Lean structures, tables as lists of rows, and each endpoint / service
method as a pure function from the old table state (plus the values the
code reads from its environment, such as `datetime.now()` or a freshly
generated random token) to the new table state and the response.
SQLAlchemy's `scalar_one_or_none` is modelled faithfully, including the
error it raises when more than one row matches.
-/

/-- SQLAlchemy `Result.scalar_one_or_none`: `none` on no row, the row when
exactly one matches, and an error (`MultipleResultsFound`) otherwise. -/
def scalarOneOrNone {α : Type} (l : List α) : Except String (Option α) :=
  match l with
  | [] => .ok none
  | [a] => .ok (some a)
  | _ => .error "MultipleResultsFound"

/-! ## Agent: command handling (`src/agent/greenops_agent.py`) -/

/-- Observable effects of `GreenOpsAgent._handle_command`: reporting a result
to the server (`GreenOpsClient.report_command`) and invoking the OS shutdown
(`perform_shutdown`, which shells out to `shutdown -h now` / `shutdown /s`). -/
inductive AgentEffect
  | report (commandId : Nat) (executed : Bool) (reason : Option String)
      (idleMinutes : Option Int)
  | osShutdown
deriving DecidableEq, Repr

/-- Constant `IDLE_THRESHOLD_MINUTES = 15` in `greenops_agent.py`: the default idle
threshold used when the command carries none. -/
def IDLE_THRESHOLD_MINUTES : Int := 15

/-- Method `GreenOpsAgent._handle_command`, with the freshly measured local idle
time (`get_idle_minutes()`, an OS probe executed at handling time) passed in
as `currentIdle`.  The returned list is the sequence of effects the method
performs. -/
def handle_command (commandId : Nat) (commandType : String) (threshold : Int)
    (currentIdle : Int) : List AgentEffect :=
  if commandType ≠ "shutdown" then
    [.report commandId false (some ("Unknown command type: " ++ commandType)) none]
  else if currentIdle < threshold then
    [.report commandId false
      (some ("Machine not idle. Current idle: " ++ toString currentIdle ++
        "m, required: " ++ toString threshold ++ "m"))
      (some currentIdle)]
  else
    [.report commandId true none (some currentIdle), .osShutdown]

/-! ## Agent: offline queue (`src/agent/agent.py`, class `OfflineQueue`) -/

/-- Method `OfflineQueue.push`: when the queue already holds `maxSize` (or more)
entries, `self._queue.pop(0)` drops the oldest entry before the new
heartbeat is appended.  (`List.tail` is Python's `pop(0)` on a non-empty
list; the persisted-file load guarantees used below keep the list
non-empty whenever the drop branch fires.) -/
def OfflineQueue.push {α : Type} (q : List α) (maxSize : Nat) (hb : α) : List α :=
  (if maxSize ≤ q.length then q.tail else q) ++ [hb]

/-! ## Backend command dispatcher (`src/backend/app/services/command_service.py`) -/

/-- Setting `settings.SHUTDOWN_COMMAND_TTL_SECONDS = 120` (`app/core/config.py`). -/
def SHUTDOWN_COMMAND_TTL_SECONDS : Int := 120

/-- A `shutdown_commands` row (`app/models/shutdown_command.py`), restricted
to the columns the dispatcher reads or writes.  Statuses are the strings the
service stores: `pending`, `executed`, `rejected`, `expired`. -/
structure ShutdownCmd where
  cmdId : Nat
  machineId : Nat
  status : String
  idleThresholdMinutes : Nat
  expiresAt : Int
  executedAt : Option Int
  rejectionReason : Option String
deriving DecidableEq, Repr

/-- A `machines` row, restricted to the columns the dispatcher touches. -/
structure BMachine where
  mid : Nat
  status : String
deriving DecidableEq, Repr

/-- An `audit_logs` row, restricted to the columns that matter here. -/
structure AuditRow where
  machineId : Option Nat
  action : String
deriving DecidableEq, Repr

/-- The dispatcher-visible database state. -/
structure CmdDB where
  machines : List BMachine
  commands : List ShutdownCmd
  audits : List AuditRow
deriving DecidableEq, Repr

/-- Lookup `Session.get(Machine, machine_id)`. -/
def CmdDB.getMachine (db : CmdDB) (mid : Nat) : Option BMachine :=
  db.machines.find? (fun m => m.mid == mid)

/-- The pending commands of one machine (the rows selected by
`WHERE machine_id = … AND status = 'pending'`). -/
def pendingFor (db : CmdDB) (mid : Nat) : List ShutdownCmd :=
  db.commands.filter (fun c => c.machineId == mid && c.status == "pending")

/-- Service method `CommandService.issue_shutdown`.  `newId` is the primary key the insert
allocates and `now` is `datetime.now(timezone.utc)`.  On a missing machine or
a machine whose status is not `idle` the service raises `ValueError` before
touching any row; otherwise, in one transaction, it flips every pending
command of the machine to `expired`, inserts the new pending command with
`expires_at = now + SHUTDOWN_COMMAND_TTL_SECONDS`, and appends an audit row. -/
def issue_shutdown (db : CmdDB) (machineId : Nat) (thresholdMin : Nat)
    (newId : Nat) (now : Int) : Except String (CmdDB × ShutdownCmd) :=
  match db.getMachine machineId with
  | none => .error "Machine not found"
  | some m =>
    if m.status ≠ "idle" then
      .error ("Shutdown only allowed for idle machines. Current status: " ++ m.status)
    else
      let expired := db.commands.map (fun c =>
        if c.machineId == machineId && c.status == "pending" then
          { c with status := "expired" }
        else c)
      let cmd : ShutdownCmd :=
        { cmdId := newId, machineId := machineId, status := "pending",
          idleThresholdMinutes := thresholdMin,
          expiresAt := now + SHUTDOWN_COMMAND_TTL_SECONDS,
          executedAt := none, rejectionReason := none }
      let audit : AuditRow := { machineId := some machineId,
                                action := "shutdown_command_issued" }
      .ok ({ machines := db.machines, commands := expired ++ [cmd],
             audits := db.audits ++ [audit] }, cmd)

/-- The `POST /commands/shutdown` endpoint
(`app/api/v1/endpoints/commands.py`): `ValueError` from the service is
mapped to HTTP 400 with the error text as the reason, in which case the
transaction rolls back and the state is unchanged. -/
def issue_shutdown_endpoint (db : CmdDB) (machineId : Nat) (thresholdMin : Nat)
    (newId : Nat) (now : Int) : Nat × String × CmdDB :=
  match issue_shutdown db machineId thresholdMin newId now with
  | .ok (db1, _) => (201, "created", db1)
  | .error e => (400, e, db)

/-- The first half of `CommandService.get_pending_command`: flip every
pending command of the machine whose `expires_at` is past to `expired`. -/
def expire_overdue (db : CmdDB) (mid : Nat) (now : Int) : CmdDB :=
  { db with commands := db.commands.map (fun c =>
      if c.machineId == mid && c.status == "pending" && decide (c.expiresAt < now)
      then { c with status := "expired" } else c) }

/-- Service method `CommandService.get_pending_command`: first flip every pending command of
the machine whose `expires_at` is past to `expired`, then return (via
`scalar_one_or_none`) the pending command with `expires_at ≥ now`, if any. -/
def get_pending_command (db : CmdDB) (mid : Nat) (now : Int) :
    Except String (CmdDB × Option ShutdownCmd) :=
  match scalarOneOrNone ((expire_overdue db mid now).commands.filter (fun c =>
      c.machineId == mid && c.status == "pending" && decide (now ≤ c.expiresAt))) with
  | .error e => .error e
  | .ok r => .ok (expire_overdue db mid now, r)

/-- Response of `GET /agents/commands/poll` (`app/api/v1/endpoints/agents.py`). -/
structure PollResponse where
  has_command : Bool
  command_id : Option Nat
  idle_threshold_minutes : Option Nat
deriving DecidableEq, Repr

/-- The `poll_commands` endpoint: report `has_command = false` when
`get_pending_command` yields nothing. -/
def poll_commands (db : CmdDB) (mid : Nat) (now : Int) :
    Except String (CmdDB × PollResponse) :=
  match get_pending_command db mid now with
  | .error e => .error e
  | .ok (db1, none) => .ok (db1, ⟨false, none, none⟩)
  | .ok (db1, some c) => .ok (db1, ⟨true, some c.cmdId, some c.idleThresholdMinutes⟩)

/-- Service method `CommandService.process_command_result`: look the command up by primary
key, reject when it is missing or belongs to another machine, otherwise
terminalize it according to `executed` — unconditionally, with no check that
the command is still pending — set the machine to `shutdown` on execution,
and append an audit row. -/
def process_command_result (db : CmdDB) (commandId machineId : Nat)
    (executed : Bool) (reason : Option String) (now : Int) :
    Except String (CmdDB × ShutdownCmd) :=
  match db.commands.find? (fun c => c.cmdId == commandId) with
  | none => .error "Command not found"
  | some cmd =>
    if cmd.machineId ≠ machineId then .error "Command not found"
    else
      let cmd1 : ShutdownCmd :=
        if executed then { cmd with status := "executed", executedAt := some now }
        else { cmd with status := "rejected", rejectionReason := reason }
      let machines1 :=
        if executed then
          db.machines.map (fun m =>
            if m.mid == machineId then { m with status := "shutdown" } else m)
        else db.machines
      let action := if executed then "shutdown_executed" else "shutdown_rejected"
      .ok ({ machines := machines1,
             commands := db.commands.map (fun c =>
               if c.cmdId == commandId then cmd1 else c),
             audits := db.audits ++ [⟨some machineId, action⟩] }, cmd1)

/-! ## Server telemetry ingestor (`src/server/utils/energy.py`,
`src/server/routers/agents.py`) -/

/-- Setting `settings.IDLE_POWER_WATTS = 65.0` (`server/config.py`). -/
def IDLE_POWER_WATTS : ℚ := 65

/-- Setting `settings.IDLE_THRESHOLD_SECONDS = 300` (`server/config.py`). -/
def IDLE_THRESHOLD_SECONDS : ℚ := 300

/-- Setting `settings.ELECTRICITY_COST_PER_KWH = 0.12` (`server/config.py`). -/
def ELECTRICITY_COST_PER_KWH : ℚ := 12 / 100

/-- Python's `round(x, digits)`, over exact rationals. -/
def roundTo (digits : Nat) (q : ℚ) : ℚ := (round (q * 10 ^ digits) : ℚ) / 10 ^ digits

/-- Function `calculate_energy_wasted` (`server/utils/energy.py`):
`round(idle_seconds / 3600 * (IDLE_POWER_WATTS / 1000), 6)`.  Note it
depends only on `idle_seconds` — no idle-threshold gate. -/
def calculate_energy_wasted (idle_seconds : ℚ) : ℚ :=
  roundTo 6 (idle_seconds / 3600 * (IDLE_POWER_WATTS / 1000))

/-- Function `calculate_cost` (`server/utils/energy.py`). -/
def calculate_cost (energy_kwh : ℚ) : ℚ :=
  roundTo 4 (energy_kwh * ELECTRICITY_COST_PER_KWH)

/-- Function `is_idle` (`server/utils/energy.py`): `idle_seconds >= IDLE_THRESHOLD_SECONDS`. -/
def is_idle (idle_seconds : ℚ) : Bool := decide (IDLE_THRESHOLD_SECONDS ≤ idle_seconds)

/-- A `machines` row of the server iteration, restricted to what
`submit_heartbeat` touches. -/
structure SMachine where
  mid : Nat
  status : String
  total_idle_seconds : ℚ
  energy_wasted_kwh : ℚ
  energy_cost_usd : ℚ
deriving DecidableEq, Repr

/-- A `heartbeats` history row as appended by `submit_heartbeat`. -/
structure HeartbeatRow where
  machineId : Nat
  idle_seconds : ℚ
  machine_is_idle : Bool
  energy_delta_kwh : ℚ
deriving DecidableEq, Repr

/-- Endpoint `submit_heartbeat` (`server/routers/agents.py`), for a payload whose
`idle_seconds` passed the `0 ≤ idle_seconds ≤ 86400` validation: classify
idle, set the machine status, add the deltas to the cumulative totals, and
append the immutable history row carrying `energy_delta_kwh`. -/
def submit_heartbeat (m : SMachine) (idle_seconds : ℚ) : SMachine × HeartbeatRow :=
  let machine_is_idle := is_idle idle_seconds
  let energy_delta := calculate_energy_wasted idle_seconds
  let cost_delta := calculate_cost energy_delta
  let m1 : SMachine :=
    { m with status := if machine_is_idle then "idle" else "online",
             total_idle_seconds := m.total_idle_seconds + idle_seconds,
             energy_wasted_kwh := m.energy_wasted_kwh + energy_delta,
             energy_cost_usd := m.energy_cost_usd + cost_delta }
  (m1, { machineId := m.mid, idle_seconds := idle_seconds,
         machine_is_idle := machine_is_idle, energy_delta_kwh := energy_delta })

/-! ## Session authority: refresh rotation (`src/server/routers/auth.py`) -/

/-- A `refresh_tokens` row, restricted to what the refresh endpoint touches. -/
structure RefreshTokenRow where
  tokenHash : String
  userId : Nat
  expiresAt : Int
  revoked : Bool
  revokedAt : Option Int
deriving DecidableEq, Repr

/-- A `users` (operator) row, restricted to what the refresh endpoint reads. -/
structure AuthUser where
  uid : Nat
  isActive : Bool
deriving DecidableEq, Repr

/-- The auth-visible database state. -/
structure AuthDB where
  users : List AuthUser
  refreshTokens : List RefreshTokenRow
deriving DecidableEq, Repr

/-- Modelled from the spec: `hash_refresh_token` (`utils.auth`, absent from
the source tree — only its callers are present) stores "only their digests
(SHA-256 hex)"; the digest is modelled as a collision-free tag of the raw
token. -/
def hash_refresh_token (t : String) : String := "sha256-" ++ t

/-- Outcome of `POST /auth/refresh`: a new access token (modelled by the
subject it is signed for), a 401, or the 500 a `MultipleResultsFound` raise
would produce. -/
inductive RefreshOutcome
  | ok (subjectId : Nat)
  | unauthorized (message : String)
  | serverError (message : String)
deriving DecidableEq, Repr

/-- Endpoint `refresh_token` (`server/routers/auth.py`): look the presented token up
by digest among non-revoked rows; 401 when absent; when expired, revoke the
row and 401; re-check the owning user is active; otherwise mark the row
revoked (rotation) and return a fresh access token, all committed together. -/
def refresh_token_endpoint (db : AuthDB) (tok : String) (now : Int) :
    AuthDB × RefreshOutcome :=
  match scalarOneOrNone (db.refreshTokens.filter
      (fun r => r.tokenHash == hash_refresh_token tok && r.revoked == false)) with
  | .error e => (db, .serverError e)
  | .ok none => (db, .unauthorized "Invalid or expired refresh token.")
  | .ok (some row) =>
    if row.expiresAt < now then
      ({ db with refreshTokens := db.refreshTokens.map (fun r =>
           if r.tokenHash == hash_refresh_token tok && r.revoked == false then
             { r with revoked := true, revokedAt := some now }
           else r) },
       .unauthorized "Refresh token expired.")
    else
      match scalarOneOrNone (db.users.filter
          (fun u => u.uid == row.userId && u.isActive)) with
      | .error e => (db, .serverError e)
      | .ok none => (db, .unauthorized "User inactive or not found.")
      | .ok (some u) =>
        ({ db with refreshTokens := db.refreshTokens.map (fun r =>
             if r.tokenHash == hash_refresh_token tok && r.revoked == false then
               { r with revoked := true, revokedAt := some now }
             else r) },
         .ok u.uid)

/-! ## Admin bootstrap (`ensure_admin_exists` in `src/server/routers/auth.py`
and `src/server/utils/auth.py`) -/

/-- A `users` (operator) row as the bootstrap sees it. -/
structure OperatorRow where
  username : String
  passwordHash : String
  role : String
  isActive : Bool
deriving DecidableEq, Repr

/-- Modelled from the spec: `hash_password` (`utils.auth`, absent from the
source tree) is the memory-hard KDF; the hash is modelled as a tag of the
password, which keeps exactly the property the bootstrap needs — the stored
value is a function of the password alone. -/
def hash_password (p : String) : String := "argon2-" ++ p

/-- Username normalisation applied by the bootstrap:
`settings.INITIAL_ADMIN_USERNAME.strip().lower()`. -/
def normalize_username (u : String) : String := u.trim.toLower

/-- Startup helper `ensure_admin_exists` (`server/routers/auth.py`), as a function of the
operator table (the advisory lock serialises concurrent runs, so one
sequential run at a time is the faithful picture).  If a row with the
normalised configured username exists, commit and return with no change;
otherwise insert the admin row, hashing
`INITIAL_ADMIN_PASSWORD or "admin123"` (Python falsiness: the empty string
falls back). -/
def ensure_admin_exists (users : List OperatorRow) (cfgUser cfgPass : String) :
    List OperatorRow :=
  let uname := normalize_username cfgUser
  match users.find? (fun u => u.username == uname) with
  | some _ => users
  | none =>
    let pass := if cfgPass = "" then "admin123" else cfgPass
    users ++ [{ username := uname, passwordHash := hash_password pass,
                role := "admin", isActive := true }]

/-- Startup helper `ensure_admin_exists` (`server/utils/auth.py` variant): identical except
that an empty configured password falls back to a randomly generated one,
passed here as `genPass`. -/
def ensure_admin_exists_v2 (users : List OperatorRow)
    (cfgUser cfgPass genPass : String) : List OperatorRow :=
  let uname := normalize_username cfgUser
  match users.find? (fun u => u.username == uname) with
  | some _ => users
  | none =>
    let pass := if cfgPass = "" then genPass else cfgPass
    users ++ [{ username := uname, passwordHash := hash_password pass,
                role := "admin", isActive := true }]

/-! ## Machine registry: re-registration and agent-token lookup
(`src/server/routers/agents.py` `register_agent`,
`src/server/utils/security.py` `get_current_machine`) -/

/-- A `machines` row of the server iteration, restricted to what
registration touches. -/
structure RegMachine where
  mid : Nat
  macAddress : String
  hostname : String
  status : String
deriving DecidableEq, Repr

/-- An `agent_tokens` row. -/
structure AgentTokenRow where
  machineId : Nat
  tokenHash : String
  revoked : Bool
deriving DecidableEq, Repr

/-- The registry-visible database state. -/
structure RegDB where
  machines : List RegMachine
  agentTokens : List AgentTokenRow
deriving DecidableEq, Repr

/-- Modelled from the spec: `hash_agent_token` (`utils.auth`, absent from
the source tree) — agent tokens are "stored only as digest" (SHA-256 hex);
modelled as a collision-free tag of the raw token. -/
def hash_agent_token (t : String) : String := "agtsha-" ++ t

/-- Endpoint `register_agent` (`server/routers/agents.py`) for a validated MAC.
`freshRaw` is the raw token returned by `generate_agent_token()` — the
endpoint calls it on *every* re-registration.  When the machine exists, its
metadata is refreshed and the non-revoked agent-token row (if any) has its
`token_hash` overwritten with the fresh digest; otherwise a fresh row is
added.  When the machine is new, machine and token rows are created
(`newMid` is the allocated id).  Returns the new state, the machine id and
whether this was a re-registration. -/
def register_agent (db : RegDB) (mac hostname freshRaw : String) (newMid : Nat) :
    Except String (RegDB × Nat × Bool) :=
  match scalarOneOrNone (db.machines.filter (fun m => m.macAddress == mac)) with
  | .error e => .error e
  | .ok (some m) =>
    let machines1 := db.machines.map (fun x =>
      if x.mid == m.mid then { x with hostname := hostname, status := "online" }
      else x)
    match scalarOneOrNone (db.agentTokens.filter
        (fun r => r.machineId == m.mid && r.revoked == false)) with
    | .error e => .error e
    | .ok none =>
      .ok ({ machines := machines1,
             agentTokens := db.agentTokens ++
               [{ machineId := m.mid, tokenHash := hash_agent_token freshRaw,
                  revoked := false }] }, m.mid, true)
    | .ok (some _) =>
      .ok ({ machines := machines1,
             agentTokens := db.agentTokens.map (fun r =>
               if r.machineId == m.mid && r.revoked == false then
                 { r with tokenHash := hash_agent_token freshRaw }
               else r) }, m.mid, true)
  | .ok none =>
    let machine : RegMachine :=
      { mid := newMid, macAddress := mac, hostname := hostname, status := "online" }
    .ok ({ machines := db.machines ++ [machine],
           agentTokens := db.agentTokens ++
             [{ machineId := newMid, tokenHash := hash_agent_token freshRaw,
                revoked := false }] }, newMid, false)

/-- Outcome of the `get_current_machine` dependency guarding heartbeats. -/
inductive MachineAuthOutcome
  | ok (machineId : Nat)
  | unauthorized (message : String)
  | notFound (message : String)
  | serverError (message : String)
deriving DecidableEq, Repr

/-- Dependency `get_current_machine` (`server/utils/security.py`): resolve the
presented bearer token's digest among non-revoked `agent_tokens` rows; 401
when none matches; 404 when the owning machine is gone. -/
def get_current_machine (db : RegDB) (rawToken : String) : MachineAuthOutcome :=
  match scalarOneOrNone (db.agentTokens.filter
      (fun r => r.tokenHash == hash_agent_token rawToken && r.revoked == false)) with
  | .error e => .serverError e
  | .ok none => .unauthorized "Agent token is invalid or revoked."
  | .ok (some row) =>
    match db.machines.find? (fun m => m.mid == row.machineId) with
    | none => .notFound "Machine not found."
    | some m => .ok m.mid


/-! ## Concrete states used by the witnesses and counterexamples -/


/-- Example dispatcher state for claim C6: one non-idle machine. -/
def exIssueDB : CmdDB :=
  { machines := [{ mid := 1, status := "online" }], commands := [], audits := [] }

/-- Example dispatcher state for claim C4: one machine already shut down and
its command already terminalized as executed at time 50. -/
def c4DB : CmdDB :=
  { machines := [{ mid := 1, status := "shutdown" }],
    commands := [{ cmdId := 10, machineId := 1, status := "executed",
                   idleThresholdMinutes := 15, expiresAt := 100,
                   executedAt := some 50, rejectionReason := none }],
    audits := [] }

/-- Expected post-state of the retried result report of claim C4: same rows,
but `executed_at` refreshed to 90 and one more audit row. -/
def c4Cmd2 : ShutdownCmd :=
  { cmdId := 10, machineId := 1, status := "executed", idleThresholdMinutes := 15,
    expiresAt := 100, executedAt := some 90, rejectionReason := none }

def c4DB2 : CmdDB :=
  { machines := [{ mid := 1, status := "shutdown" }],
    commands := [c4Cmd2],
    audits := [{ machineId := some 1, action := "shutdown_executed" }] }

/-- Example dispatcher state for claim C2: an idle machine with one prior
pending command. -/
def exC2DB : CmdDB :=
  { machines := [{ mid := 1, status := "idle" }],
    commands := [{ cmdId := 3, machineId := 1, status := "pending",
                   idleThresholdMinutes := 10, expiresAt := 50,
                   executedAt := none, rejectionReason := none }],
    audits := [] }

/-- Command inserted by the claim C2 witness. -/
def exC2Cmd : ShutdownCmd :=
  { cmdId := 7, machineId := 1, status := "pending", idleThresholdMinutes := 15,
    expiresAt := 1120, executedAt := none, rejectionReason := none }

/-- Expected dispatcher state after the claim C2 witness issue. -/
def exC2DB1 : CmdDB :=
  { machines := [{ mid := 1, status := "idle" }],
    commands := [{ cmdId := 3, machineId := 1, status := "expired",
                   idleThresholdMinutes := 10, expiresAt := 50,
                   executedAt := none, rejectionReason := none }, exC2Cmd],
    audits := [{ machineId := some 1, action := "shutdown_command_issued" }] }

/-- Example dispatcher state for claim C3: one stale pending command. -/
def exC3DB : CmdDB :=
  { machines := [{ mid := 1, status := "idle" }],
    commands := [{ cmdId := 4, machineId := 1, status := "pending",
                   idleThresholdMinutes := 10, expiresAt := 50,
                   executedAt := none, rejectionReason := none }],
    audits := [] }

/-- Example machine row for claim C5. -/
def exSMachine : SMachine :=
  { mid := 1, status := "online", total_idle_seconds := 0,
    energy_wasted_kwh := 0, energy_cost_usd := 0 }

/-- Example operator row for claim C8, already normalised. -/
def exAdminRow : OperatorRow :=
  { username := normalize_username " Admin ", passwordHash := "argon2-oldsecret",
    role := "admin", isActive := true }

/-- Example refresh-token row for claim C7. -/
def exAuthRow : RefreshTokenRow :=
  { tokenHash := hash_refresh_token "rt1", userId := 7, expiresAt := 1000,
    revoked := false, revokedAt := none }

/-- Example auth state for claim C7: one active user, one live token. -/
def exAuthDB : AuthDB :=
  { users := [{ uid := 7, isActive := true }], refreshTokens := [exAuthRow] }

/-- Example machine row for claim C10. -/
def exRegMachine : RegMachine :=
  { mid := 1, macAddress := "AA:BB:CC:DD:EE:FF", hostname := "w1",
    status := "online" }

/-- Example agent-token row for claim C10. -/
def exRegToken : AgentTokenRow :=
  { machineId := 1, tokenHash := hash_agent_token "oldtok", revoked := false }

/-- Example registry state for claim C10. -/
def exRegDB : RegDB :=
  { machines := [exRegMachine], agentTokens := [exRegToken] }


/-! ## Helper lemmas -/


/-- Flipping the pending commands of machine `mid` to `expired` leaves no
pending command of `mid` behind. -/
lemma expire_map_no_pending (l : List ShutdownCmd) (mid : Nat) :
    (l.map (fun c => if c.machineId == mid && c.status == "pending" then
        { c with status := "expired" } else c)).filter
      (fun c => c.machineId == mid && c.status == "pending") = [] := by
  rw [List.filter_map]
  rw [List.filter_eq_nil_iff.mpr]
  · simp
  · intro a _
    by_cases h : (a.machineId == mid && a.status == "pending") = true
    · simp only [Function.comp_apply, if_pos h]
      simp
    · simp only [Function.comp_apply, if_neg h]
      exact h

/-- Flipping the pending commands of machine `mid` to `expired` does not
change the pending commands of any other machine. -/
lemma expire_map_other_pending (l : List ShutdownCmd) (mid m : Nat) (hm : m ≠ mid) :
    (l.map (fun c => if c.machineId == mid && c.status == "pending" then
        { c with status := "expired" } else c)).filter
      (fun c => c.machineId == m && c.status == "pending") =
    l.filter (fun c => c.machineId == m && c.status == "pending") := by
  rw [List.filter_map]
  have hcongr : ∀ c ∈ l,
      ((fun c => c.machineId == m && c.status == "pending") ∘
        (fun c => if c.machineId == mid && c.status == "pending" then
          { c with status := "expired" } else c)) c =
      (fun c => c.machineId == m && c.status == "pending") c := by
    intro c _
    by_cases h : (c.machineId == mid && c.status == "pending") = true
    · have hcm : c.machineId = mid := eq_of_beq ((Bool.and_eq_true _ _).mp h).1
      simp only [Function.comp_apply, if_pos h]
      simp [hcm, Ne.symm hm]
    · simp only [Function.comp_apply, if_neg h]
  rw [List.filter_congr hcongr]
  have hid : ∀ c ∈ l.filter (fun c => c.machineId == m && c.status == "pending"),
      (fun c => if c.machineId == mid && c.status == "pending" then
        ({ c with status := "expired" } : ShutdownCmd) else c) c = c := by
    intro c hc
    have hp := List.of_mem_filter hc
    have hcm : c.machineId = m := eq_of_beq ((Bool.and_eq_true _ _).mp hp).1
    simp only
    rw [if_neg]
    simp [hcm, hm]
  exact List.map_congr_left hid |>.trans (List.map_id _)

/-- A filter by a stronger predicate is no longer than a filter by a weaker
one. -/
lemma filter_length_mono {α : Type} (p q : α → Bool) (l : List α)
    (h : ∀ a, p a = true → q a = true) :
    (l.filter p).length ≤ (l.filter q).length := by
  induction l with
  | nil => simp
  | cons a l ih =>
    simp only [List.filter_cons]
    by_cases hp : p a = true
    · rw [hp, h a hp]
      simpa using ih
    · rw [Bool.not_eq_true] at hp
      rw [hp]
      by_cases hq : q a = true
      · rw [hq]
        simp only [List.length_cons]
        exact le_trans ih (Nat.le_succ _)
      · rw [Bool.not_eq_true] at hq
        rw [hq]
        exact ih

/-- Expiring the *stale* pending commands of `mid` does not change the set
of *fresh* pending commands of `mid`. -/
lemma stale_expire_preserves_fresh (l : List ShutdownCmd) (mid : Nat) (now : Int) :
    (l.map (fun c =>
      if c.machineId == mid && c.status == "pending" && decide (c.expiresAt < now)
      then { c with status := "expired" } else c)).filter
        (fun c => c.machineId == mid && c.status == "pending" &&
          decide (now ≤ c.expiresAt)) =
    l.filter (fun c => c.machineId == mid && c.status == "pending" &&
      decide (now ≤ c.expiresAt)) := by
  rw [List.filter_map]
  have hcongr : ∀ c ∈ l,
      ((fun c => c.machineId == mid && c.status == "pending" &&
          decide (now ≤ c.expiresAt)) ∘
        (fun c =>
          if c.machineId == mid && c.status == "pending" && decide (c.expiresAt < now)
          then { c with status := "expired" } else c)) c =
      (fun c => c.machineId == mid && c.status == "pending" &&
        decide (now ≤ c.expiresAt)) c := by
    intro c _
    by_cases h : (c.machineId == mid && c.status == "pending" &&
        decide (c.expiresAt < now)) = true
    · have hstale : c.expiresAt < now := by
        have := ((Bool.and_eq_true _ _).mp h).2
        exact of_decide_eq_true this
      simp only [Function.comp_apply, if_pos h]
      have h1 : (({ c with status := "expired" } : ShutdownCmd).status ==
          "pending") = false := by simp
      have h2 : (decide (now ≤ c.expiresAt)) = false := by
        simp [not_le.mpr hstale]
      simp [h1, h2]
    · simp only [Function.comp_apply, if_neg h]
  rw [List.filter_congr hcongr]
  have hid : ∀ c ∈ l.filter (fun c => c.machineId == mid && c.status == "pending" &&
      decide (now ≤ c.expiresAt)),
      (fun c =>
        if c.machineId == mid && c.status == "pending" && decide (c.expiresAt < now)
        then ({ c with status := "expired" } : ShutdownCmd) else c) c = c := by
    intro c hc
    have hp := List.of_mem_filter hc
    have hfresh : now ≤ c.expiresAt :=
      of_decide_eq_true ((Bool.and_eq_true _ _).mp hp).2
    simp only
    rw [if_neg]
    intro hcontra
    exact absurd (of_decide_eq_true ((Bool.and_eq_true _ _).mp hcontra).2)
      (not_lt.mpr hfresh)
  exact List.map_congr_left hid |>.trans (List.map_id _)

/-- A map that edits only rows selected by `p`, and leaves `p` itself
invariant, commutes with `filter p`. -/
lemma filter_map_comm {α : Type} (g : α → α) (p : α → Bool) (l : List α)
    (hg : ∀ a, p (g a) = p a) (hid : ∀ a, p a = false → g a = a) :
    (l.map g).filter p = (l.filter p).map g := by
  induction l with
  | nil => rfl
  | cons a l ih =>
    simp only [List.map_cons, List.filter_cons, hg a]
    by_cases hp : p a = true
    · simp [hp, ih]
    · rw [Bool.not_eq_true] at hp
      simp [hp, ih]


/-! ## Claims -/


/-- Claim C1: on receipt of a shutdown command the agent re-measures local
idle time at execution time (`get_idle_minutes`, passed as `currentIdle`) and
compares it to the command's threshold; when the measured idle is below the
threshold it reports `executed = false` with a reason and the OS-shutdown
effect never occurs, and the OS-shutdown effect is reachable only when the
measured idle is at least the threshold. -/
theorem agent_revalidates_idle_before_shutdown
    (id : Nat) (ty : String) (th idle : Int) :
    (idle < th →
      AgentEffect.osShutdown ∉ handle_command id ty th idle ∧
      (ty = "shutdown" →
        handle_command id ty th idle =
          [.report id false
            (some ("Machine not idle. Current idle: " ++ toString idle ++
              "m, required: " ++ toString th ++ "m")) (some idle)])) ∧
    (AgentEffect.osShutdown ∈ handle_command id ty th idle →
      ty = "shutdown" ∧ th ≤ idle) := by
  unfold handle_command
  split_ifs with h1 h2 <;> simp_all

/-- Witness for claim C1 at threshold 15 and measured idle 3. -/
theorem agent_revalidates_witness :
    (3 : Int) < 15 ∧
    AgentEffect.osShutdown ∉ handle_command 5 "shutdown" 15 3 ∧
    handle_command 5 "shutdown" 15 3 =
      [.report 5 false (some "Machine not idle. Current idle: 3m, required: 15m")
        (some 3)] := by
  have h := agent_revalidates_idle_before_shutdown 5 "shutdown" 15 3
  have h2 := (h.1 (by decide))
  exact ⟨by decide, h2.1, h2.2 rfl⟩

/-- Claim C2: a successful `issue_shutdown` leaves the target machine with
exactly the freshly inserted command pending — every prior pending row of
that machine is flipped to `expired` in the same transition that inserts the
new pending row — leaves the pending rows of every other machine unchanged,
and therefore preserves the at-most-one-pending-command-per-machine
invariant. -/
theorem issue_expires_prior_pending (db : CmdDB) (mid th newId : Nat) (now : Int)
    (db1 : CmdDB) (c : ShutdownCmd)
    (hok : issue_shutdown db mid th newId now = .ok (db1, c)) :
    pendingFor db1 mid = [c] ∧
    (∀ m, m ≠ mid → pendingFor db1 m = pendingFor db m) ∧
    (∀ old ∈ db.commands, old.machineId = mid → old.status = "pending" →
      { old with status := "expired" } ∈ db1.commands) ∧
    (∀ m, (pendingFor db m).length ≤ 1 → (pendingFor db1 m).length ≤ 1) := by
  unfold issue_shutdown at hok
  cases hfind : db.getMachine mid with
  | none => rw [hfind] at hok; simp at hok
  | some machine =>
    rw [hfind] at hok
    by_cases hst : machine.status = "idle"
    · simp only [hst, ne_eq, not_true_eq_false, if_false, Except.ok.injEq,
        Prod.mk.injEq] at hok
      obtain ⟨hdb1, hc⟩ := hok
      subst hdb1
      have hcpend : c.status = "pending" := by rw [← hc]
      have hcmid : c.machineId = mid := by rw [← hc]
      rw [hc]
      refine ⟨?_, ?_, ?_, ?_⟩
      · unfold pendingFor
        simp only [List.filter_append, expire_map_no_pending]
        simp [hcmid, hcpend]
      · intro m hm
        unfold pendingFor
        simp only [List.filter_append, expire_map_other_pending _ _ _ hm]
        have hone : ([c].filter
            (fun x => x.machineId == m && x.status == "pending")) = [] := by
          simp [hcmid, Ne.symm hm]
        rw [hone, List.append_nil]
      · intro old hold hmid2 hpend
        simp only [List.mem_append]
        left
        have hfun : (fun x => if x.machineId == mid && x.status == "pending" then
            ({ x with status := "expired" } : ShutdownCmd) else x) old =
            { old with status := "expired" } := by
          simp [hmid2, hpend]
        rw [← hfun]
        exact List.mem_map_of_mem _ hold
      · intro m hlen
        by_cases hm : m = mid
        · subst hm
          unfold pendingFor
          simp only [List.filter_append, expire_map_no_pending]
          simp [hcmid, hcpend]
        · unfold pendingFor at hlen ⊢
          simp only [List.filter_append, expire_map_other_pending _ _ _ hm]
          have hone : ([c].filter
              (fun x => x.machineId == m && x.status == "pending")) = [] := by
            simp [hcmid, Ne.symm hm]
          rw [hone, List.append_nil]
          exact hlen
    · simp [hst] at hok

/-- Witness for claim C2: issuing over one prior pending command. -/
theorem issue_expires_prior_pending_witness :
    issue_shutdown exC2DB 1 15 7 1000 = .ok (exC2DB1, exC2Cmd) ∧
    pendingFor exC2DB1 1 = [exC2Cmd] := by
  have hok : issue_shutdown exC2DB 1 15 7 1000 = .ok (exC2DB1, exC2Cmd) := by rfl
  exact ⟨hok, (issue_expires_prior_pending exC2DB 1 15 7 1000 exC2DB1 exC2Cmd hok).1⟩

/-- Claim C3: `get_pending_command` (the lookup used by both the heartbeat
path and `poll_commands`) transitions every observed pending row whose
`expires_at` is past to `expired` before returning, and reports no pending
command exactly when no pending command with `expires_at ≥ now` exists. -/
theorem poll_expires_stale_commands (db : CmdDB) (mid : Nat) (now : Int)
    (hinv : (pendingFor db mid).length ≤ 1) :
    ∃ r, get_pending_command db mid now = .ok (expire_overdue db mid now, r) ∧
      (∀ old ∈ db.commands, old.machineId = mid → old.status = "pending" →
        old.expiresAt < now →
        { old with status := "expired" } ∈ (expire_overdue db mid now).commands) ∧
      ((r = none) ↔ ∀ c2 ∈ db.commands,
        ¬(c2.machineId = mid ∧ c2.status = "pending" ∧ now ≤ c2.expiresAt)) ∧
      poll_commands db mid now = .ok (expire_overdue db mid now,
        match r with
        | none => ⟨false, none, none⟩
        | some c2 => ⟨true, some c2.cmdId, some c2.idleThresholdMinutes⟩) := by
  have hmono : (db.commands.filter (fun c => c.machineId == mid &&
      c.status == "pending" && decide (now ≤ c.expiresAt))).length ≤
      (pendingFor db mid).length := by
    apply filter_length_mono
    intro a ha
    exact ((Bool.and_eq_true _ _).mp ha).1
  have hcomm : (expire_overdue db mid now).commands = db.commands.map (fun c =>
      if c.machineId == mid && c.status == "pending" && decide (c.expiresAt < now)
      then { c with status := "expired" } else c) := rfl
  have hpres : (expire_overdue db mid now).commands.filter (fun c =>
      c.machineId == mid && c.status == "pending" && decide (now ≤ c.expiresAt)) =
      db.commands.filter (fun c => c.machineId == mid && c.status == "pending" &&
        decide (now ≤ c.expiresAt)) := by
    rw [hcomm]
    exact stale_expire_preserves_fresh db.commands mid now
  have hmem : ∀ old ∈ db.commands, old.machineId = mid → old.status = "pending" →
      old.expiresAt < now →
      ({ old with status := "expired" } : ShutdownCmd) ∈
        (expire_overdue db mid now).commands := by
    intro old hold h1 h2 h3
    rw [hcomm]
    have hfun : (fun c =>
        if c.machineId == mid && c.status == "pending" && decide (c.expiresAt < now)
        then ({ c with status := "expired" } : ShutdownCmd) else c) old =
        { old with status := "expired" } := by
      simp [h1, h2, h3]
    rw [← hfun]
    exact List.mem_map_of_mem _ hold
  cases hfl : db.commands.filter (fun c => c.machineId == mid &&
      c.status == "pending" && decide (now ≤ c.expiresAt)) with
  | nil =>
    have hres : get_pending_command db mid now =
        .ok (expire_overdue db mid now, none) := by
      unfold get_pending_command
      rw [hpres, hfl]
      rfl
    refine ⟨none, hres, hmem, ?_, ?_⟩
    · simp only [true_iff]
      intro c2 hc2 hcontra
      have hin : c2 ∈ db.commands.filter (fun c => c.machineId == mid &&
          c.status == "pending" && decide (now ≤ c.expiresAt)) := by
        apply List.mem_filter.mpr
        refine ⟨hc2, ?_⟩
        simp [hcontra.1, hcontra.2.1, hcontra.2.2]
      rw [hfl] at hin
      exact absurd hin (List.not_mem_nil c2)
    · unfold poll_commands
      rw [hres]
  | cons a tl =>
    have htl : tl = [] := by
      rw [hfl] at hmono
      have hle := le_trans hmono hinv
      simp only [List.length_cons] at hle
      have : tl.length = 0 := by omega
      exact List.length_eq_zero.mp this
    subst htl
    have hamemf : a ∈ db.commands.filter (fun c => c.machineId == mid &&
        c.status == "pending" && decide (now ≤ c.expiresAt)) := by
      rw [hfl]
      exact List.mem_singleton_self a
    have hafresh := List.of_mem_filter hamemf
    have hres : get_pending_command db mid now =
        .ok (expire_overdue db mid now, some a) := by
      unfold get_pending_command
      rw [hpres, hfl]
      rfl
    refine ⟨some a, hres, hmem, ?_, ?_⟩
    · simp only [reduceCtorEq, false_iff, not_forall]
      refine ⟨a, ?_⟩
      have hamem : a ∈ db.commands := List.mem_of_mem_filter hamemf
      refine ⟨hamem, ?_⟩
      simp only [not_not]
      have h1 := (Bool.and_eq_true _ _).mp hafresh
      have h2 := (Bool.and_eq_true _ _).mp h1.1
      exact ⟨eq_of_beq h2.1, eq_of_beq h2.2, of_decide_eq_true h1.2⟩
    · unfold poll_commands
      rw [hres]

/-- Witness for claim C3: polling a machine whose only pending command
expired at 50, at time 100. -/
theorem poll_expires_stale_commands_witness :
    (pendingFor exC3DB 1).length ≤ 1 ∧
    (∃ r, get_pending_command exC3DB 1 100 = .ok (expire_overdue exC3DB 1 100, r) ∧
      (∀ old ∈ exC3DB.commands, old.machineId = 1 → old.status = "pending" →
        old.expiresAt < 100 →
        { old with status := "expired" } ∈ (expire_overdue exC3DB 1 100).commands) ∧
      ((r = none) ↔ ∀ c2 ∈ exC3DB.commands,
        ¬(c2.machineId = 1 ∧ c2.status = "pending" ∧ (100 : Int) ≤ c2.expiresAt)) ∧
      poll_commands exC3DB 1 100 = .ok (expire_overdue exC3DB 1 100,
        match r with
        | none => ⟨false, none, none⟩
        | some c2 => ⟨true, some c2.cmdId, some c2.idleThresholdMinutes⟩)) :=
  ⟨by decide, poll_expires_stale_commands exC3DB 1 100 (by decide)⟩

/-- Counterexample to claim C4: re-reporting `executed = true` on a command
already terminalized as executed (with `executed_at` 50) at the later time 90
is not a no-op — it overwrites `executed_at` (50 becomes 90) and appends a
new audit row. -/
theorem result_retry_not_noop_counterexample :
    process_command_result c4DB 10 1 true none 90 = .ok (c4DB2, c4Cmd2) ∧
    c4DB2.audits.length = c4DB.audits.length + 1 ∧
    c4DB2.commands.map ShutdownCmd.executedAt ≠
      c4DB.commands.map ShutdownCmd.executedAt :=
  ⟨rfl, by decide, by decide⟩

/-- Claim C4 (amended): re-reporting `executed = true` on an already-executed
command keeps the status `executed` (the stored decision is stable), but it
overwrites `executed_at` with the time of the retried report and appends a
new audit row; the second call is not a strict no-op. -/
theorem result_retry_keeps_executed (db : CmdDB) (cid mid : Nat) (now : Int)
    (cmd : ShutdownCmd)
    (hfind : db.commands.find? (fun c => c.cmdId == cid) = some cmd)
    (hmid : cmd.machineId = mid) (hexec : cmd.status = "executed") :
    ∃ db1 cmd1, process_command_result db cid mid true none now = .ok (db1, cmd1) ∧
      cmd1.status = cmd.status ∧
      cmd1.executedAt = some now ∧
      db1.audits = db.audits ++ [⟨some mid, "shutdown_executed"⟩] := by
  have hres : process_command_result db cid mid true none now =
      .ok ({ machines := db.machines.map (fun m =>
               if m.mid == mid then { m with status := "shutdown" } else m),
             commands := db.commands.map (fun c =>
               if c.cmdId == cid then
                 { cmd with status := "executed", executedAt := some now }
               else c),
             audits := db.audits ++ [⟨some mid, "shutdown_executed"⟩] },
           { cmd with status := "executed", executedAt := some now }) := by
    unfold process_command_result
    rw [hfind]
    simp [hmid]
  exact ⟨_, _, hres, hexec.symm, rfl, rfl⟩

/-- Witness for claim C4 (amended) at the concrete executed command. -/
theorem result_retry_keeps_executed_witness :
    c4DB.commands.find? (fun c => c.cmdId == 10) =
      some { cmdId := 10, machineId := 1, status := "executed",
             idleThresholdMinutes := 15, expiresAt := 100,
             executedAt := some 50, rejectionReason := none } ∧
    (∃ db1 cmd1, process_command_result c4DB 10 1 true none 90 = .ok (db1, cmd1) ∧
      cmd1.status = "executed" ∧ cmd1.executedAt = some 90 ∧
      db1.audits = c4DB.audits ++ [⟨some 1, "shutdown_executed"⟩]) := by
  refine ⟨by decide, ?_⟩
  obtain ⟨db1, cmd1, h1, h2, h3, h4⟩ := result_retry_keeps_executed c4DB 10 1 90
    { cmdId := 10, machineId := 1, status := "executed",
      idleThresholdMinutes := 15, expiresAt := 100,
      executedAt := some 50, rejectionReason := none } (by decide) (by decide) (by decide)
  exact ⟨db1, cmd1, h1, h2, h3, h4⟩

/-- Counterexample to claim C5: a heartbeat with `idle_seconds = 60`, below
the 300 s idle threshold, still records a strictly positive `delta_kwh`
(0.001083 kWh at 65 W) — so `delta_kwh > 0` does not imply
`idle_seconds ≥ threshold`. -/
theorem energy_threshold_counterexample :
    (0 : ℚ) ≤ 60 ∧ (60 : ℚ) ≤ 86400 ∧
    ¬(IDLE_THRESHOLD_SECONDS ≤ (60 : ℚ)) ∧
    0 < (submit_heartbeat exSMachine 60).2.energy_delta_kwh := by
  refine ⟨by norm_num, by norm_num, by norm_num [IDLE_THRESHOLD_SECONDS], ?_⟩
  have hval : (submit_heartbeat exSMachine 60).2.energy_delta_kwh =
      calculate_energy_wasted 60 := rfl
  have hcalc : calculate_energy_wasted 60 = 1083 / 1000000 := by
    unfold calculate_energy_wasted roundTo IDLE_POWER_WATTS
    have harg : (60 : ℚ) / 3600 * (65 / 1000) * 10 ^ 6 = 3250 / 3 := by norm_num
    rw [harg]
    have hround : round ((3250 : ℚ) / 3) = 1083 := by
      rw [round_eq]
      norm_num [Int.floor_eq_iff]
    rw [hround]
    norm_num
  rw [hval, hcalc]
  norm_num

/-- Claim C5 (amended): for every accepted heartbeat
(`idle_seconds ∈ [0, 86400]`), the recorded `delta_kwh` is non-negative and
is strictly positive iff `idle_seconds ≥ 1`: the energy formula carries no
threshold gate; the 300 s threshold governs only the idle classification
stored in the same row. -/
theorem energy_delta_sign (m : SMachine) (n : ℕ) (hn : n ≤ 86400) :
    0 ≤ (submit_heartbeat m n).2.energy_delta_kwh ∧
    (0 < (submit_heartbeat m n).2.energy_delta_kwh ↔ 1 ≤ n) ∧
    ((submit_heartbeat m n).2.machine_is_idle = true ↔ (300 : ℚ) ≤ n) := by
  have hval : (submit_heartbeat m n).2.energy_delta_kwh =
      (round ((n : ℚ) * 325 / 18) : ℚ) / 10 ^ 6 := by
    show calculate_energy_wasted n = _
    unfold calculate_energy_wasted roundTo IDLE_POWER_WATTS
    have harg : (n : ℚ) / 3600 * (65 / 1000) * 10 ^ 6 = (n : ℚ) * 325 / 18 := by
      ring
    rw [harg]
  have hnonnegarg : (0 : ℚ) ≤ (n : ℚ) * 325 / 18 := by positivity
  have hroundnn : (0 : ℤ) ≤ round ((n : ℚ) * 325 / 18) := by
    rw [round_eq]
    apply Int.le_floor.mpr
    push_cast
    linarith
  refine ⟨?_, ?_, ?_⟩
  · rw [hval]
    apply div_nonneg _ (by positivity)
    exact_mod_cast hroundnn
  · rw [hval]
    constructor
    · intro hpos
      by_contra hcon
      have hn0 : n = 0 := by omega
      subst hn0
      simp only [Nat.cast_zero, zero_mul, zero_div, round_zero, Int.cast_zero] at hpos
      exact absurd hpos (by norm_num)
    · intro h1
      have h1q : (1 : ℚ) ≤ (n : ℚ) := by exact_mod_cast h1
      have hround18 : (18 : ℤ) ≤ round ((n : ℚ) * 325 / 18) := by
        rw [round_eq]
        apply Int.le_floor.mpr
        push_cast
        nlinarith
      have : (0 : ℚ) < (round ((n : ℚ) * 325 / 18) : ℚ) := by
        have : (18 : ℚ) ≤ (round ((n : ℚ) * 325 / 18) : ℚ) := by exact_mod_cast hround18
        linarith
      positivity
  · show is_idle (n : ℚ) = true ↔ (300 : ℚ) ≤ n
    unfold is_idle IDLE_THRESHOLD_SECONDS
    exact decide_eq_true_iff

/-- Witness for claim C5 (amended) at `idle_seconds = 600`. -/
theorem energy_delta_sign_witness :
    (600 : ℕ) ≤ 86400 ∧
    (0 ≤ (submit_heartbeat exSMachine ((600 : ℕ) : ℚ)).2.energy_delta_kwh ∧
      (0 < (submit_heartbeat exSMachine ((600 : ℕ) : ℚ)).2.energy_delta_kwh ↔
        1 ≤ (600 : ℕ)) ∧
      ((submit_heartbeat exSMachine ((600 : ℕ) : ℚ)).2.machine_is_idle = true ↔
        (300 : ℚ) ≤ ((600 : ℕ) : ℚ))) :=
  ⟨by decide, energy_delta_sign exSMachine 600 (by decide)⟩

/-- Claim C6: issuing a shutdown command for an existing machine whose status
is anything other than `idle` fails with HTTP 400 carrying a reason, and the
database — in particular the command table — is left unchanged (no new
command row). -/
theorem issue_shutdown_rejects_non_idle (db : CmdDB) (mid th newId : Nat)
    (now : Int) (m : BMachine)
    (hfind : db.getMachine mid = some m) (hst : m.status ≠ "idle") :
    issue_shutdown_endpoint db mid th newId now =
      (400, "Shutdown only allowed for idle machines. Current status: " ++ m.status,
        db) := by
  unfold issue_shutdown_endpoint issue_shutdown
  rw [hfind]
  simp [hst]

/-- Witness for claim C6: a machine with status `online`. -/
theorem issue_shutdown_rejects_non_idle_witness :
    exIssueDB.getMachine 1 = some { mid := 1, status := "online" } ∧
    ({ mid := 1, status := "online" } : BMachine).status ≠ "idle" ∧
    issue_shutdown_endpoint exIssueDB 1 15 7 0 =
      (400, "Shutdown only allowed for idle machines. Current status: online",
        exIssueDB) := by
  refine ⟨by decide, by decide, ?_⟩
  exact issue_shutdown_rejects_non_idle exIssueDB 1 15 7 0
    { mid := 1, status := "online" } (by decide) (by decide)

/-- Claim C7: a successful refresh marks the stored row of the presented
token's digest revoked in the same transition that returns the new access
token, and a later refresh presenting the same rotated token fails with
401. -/
theorem refresh_rotation_single_use (db : AuthDB) (tok : String) (now now2 : Int)
    (row : RefreshTokenRow) (u : AuthUser)
    (hrow : db.refreshTokens.filter
      (fun r => r.tokenHash == hash_refresh_token tok && r.revoked == false) = [row])
    (hexp : now ≤ row.expiresAt)
    (huser : db.users.filter (fun x => x.uid == row.userId && x.isActive) = [u]) :
    ∃ db1, refresh_token_endpoint db tok now = (db1, .ok u.uid) ∧
      (∀ r ∈ db1.refreshTokens, r.tokenHash = hash_refresh_token tok →
        r.revoked = true) ∧
      refresh_token_endpoint db1 tok now2 =
        (db1, .unauthorized "Invalid or expired refresh token.") := by
  have h1 : scalarOneOrNone (db.refreshTokens.filter
      (fun r => r.tokenHash == hash_refresh_token tok && r.revoked == false)) =
      .ok (some row) := by rw [hrow]; rfl
  have h2 : scalarOneOrNone (db.users.filter
      (fun x => x.uid == row.userId && x.isActive)) = .ok (some u) := by
    rw [huser]; rfl
  have hres1 : refresh_token_endpoint db tok now =
      ({ db with refreshTokens := db.refreshTokens.map (fun r =>
           if r.tokenHash == hash_refresh_token tok && r.revoked == false then
             { r with revoked := true, revokedAt := some now }
           else r) }, .ok u.uid) := by
    unfold refresh_token_endpoint
    rw [h1]
    simp only [if_neg (not_lt.mpr hexp)]
    rw [h2]
  have hallrev : ∀ r ∈ (db.refreshTokens.map (fun r =>
      if r.tokenHash == hash_refresh_token tok && r.revoked == false then
        { r with revoked := true, revokedAt := some now }
      else r)), r.tokenHash = hash_refresh_token tok → r.revoked = true := by
    intro r hr hhash
    obtain ⟨r0, hr0mem, hr0eq⟩ := List.mem_map.mp hr
    by_cases hp : (r0.tokenHash == hash_refresh_token tok && r0.revoked == false) = true
    · rw [← hr0eq]
      simp only [if_pos hp]
    · rw [← hr0eq] at hhash ⊢
      simp only [if_neg hp] at hhash ⊢
      cases hv : r0.revoked with
      | true => rfl
      | false =>
        exfalso
        apply hp
        simp [hhash, hv]
  have hempty : ((db.refreshTokens.map (fun r =>
      if r.tokenHash == hash_refresh_token tok && r.revoked == false then
        { r with revoked := true, revokedAt := some now }
      else r)).filter
        (fun r => r.tokenHash == hash_refresh_token tok && r.revoked == false)) = [] := by
    apply List.filter_eq_nil_iff.mpr
    intro r hr hcon
    have hc := (Bool.and_eq_true _ _).mp hcon
    have hhash : r.tokenHash = hash_refresh_token tok := eq_of_beq hc.1
    have hrev := hallrev r hr hhash
    rw [hrev] at hc
    exact absurd hc.2 (by decide)
  refine ⟨_, hres1, hallrev, ?_⟩
  unfold refresh_token_endpoint
  have h3 : scalarOneOrNone (({ db with refreshTokens := db.refreshTokens.map (fun r =>
      if r.tokenHash == hash_refresh_token tok && r.revoked == false then
        { r with revoked := true, revokedAt := some now }
      else r) } : AuthDB).refreshTokens.filter
        (fun r => r.tokenHash == hash_refresh_token tok && r.revoked == false)) =
      .ok none := by
    show scalarOneOrNone ((db.refreshTokens.map fun r =>
      if r.tokenHash == hash_refresh_token tok && r.revoked == false then
        { r with revoked := true, revokedAt := some now }
      else r).filter
        (fun r => r.tokenHash == hash_refresh_token tok && r.revoked == false)) = .ok none
    rw [hempty]
    rfl
  rw [h3]

/-- Witness for claim C7: refresh at time 10 and retry at time 20. -/
theorem refresh_rotation_single_use_witness :
    (exAuthDB.refreshTokens.filter
      (fun r => r.tokenHash == hash_refresh_token "rt1" && r.revoked == false) =
      [exAuthRow]) ∧
    ((10 : Int) ≤ 1000) ∧
    (exAuthDB.users.filter (fun x => x.uid == 7 && x.isActive) =
      [{ uid := 7, isActive := true }]) ∧
    (∃ db1, refresh_token_endpoint exAuthDB "rt1" 10 = (db1, .ok 7) ∧
      (∀ r ∈ db1.refreshTokens, r.tokenHash = hash_refresh_token "rt1" →
        r.revoked = true) ∧
      refresh_token_endpoint db1 "rt1" 20 =
        (db1, .unauthorized "Invalid or expired refresh token.")) :=
  ⟨by decide, by decide, by decide,
    refresh_rotation_single_use exAuthDB "rt1" 10 20 exAuthRow
      { uid := 7, isActive := true } (by decide) (by decide) (by decide)⟩

/-- Claim C8: admin bootstrap is idempotent — when an operator row with the
normalised configured username already exists, `ensure_admin_exists` (both
source variants) leaves the operator table entirely unchanged regardless of
the configured password, so a second Bootstrap run after a first successful
run changes nothing. -/
theorem admin_bootstrap_idempotent :
    (∀ (users : List OperatorRow) (cfgUser cfgPass : String) (u : OperatorRow),
      u ∈ users → u.username = normalize_username cfgUser →
      ensure_admin_exists users cfgUser cfgPass = users) ∧
    (∀ (users : List OperatorRow) (cfgUser p1 p2 : String),
      ensure_admin_exists (ensure_admin_exists users cfgUser p1) cfgUser p2 =
        ensure_admin_exists users cfgUser p1) ∧
    (∀ (users : List OperatorRow) (cfgUser cfgPass genPass : String)
      (u : OperatorRow),
      u ∈ users → u.username = normalize_username cfgUser →
      ensure_admin_exists_v2 users cfgUser cfgPass genPass = users) ∧
    (∀ (users : List OperatorRow) (cfgUser p1 p2 g1 g2 : String),
      ensure_admin_exists_v2 (ensure_admin_exists_v2 users cfgUser p1 g1) cfgUser p2 g2 =
        ensure_admin_exists_v2 users cfgUser p1 g1) := by
  have key : ∀ (users : List OperatorRow) (uname : String) (u : OperatorRow),
      u ∈ users → u.username = uname →
      users.find? (fun x => x.username == uname) ≠ none := by
    intro users uname u hu hname hnone
    exact absurd (by simp [hname]) (List.find?_eq_none.mp hnone u hu)
  have insKey : ∀ (users : List OperatorRow) (uname : String) (row : OperatorRow),
      row.username = uname →
      users.find? (fun x => x.username == uname) = none →
      (users ++ [row]).find? (fun x => x.username == uname) = some row := by
    intro users uname row hname hnone
    rw [List.find?_append, hnone]
    simp [hname]
  refine ⟨?_, ?_, ?_, ?_⟩
  · intro users cfgUser cfgPass u hu hname
    unfold ensure_admin_exists
    cases hf : users.find? (fun x => x.username == normalize_username cfgUser) with
    | none => exact absurd hf (key users _ u hu hname)
    | some w => simp [hf]
  · intro users cfgUser p1 p2
    unfold ensure_admin_exists
    cases hf : users.find? (fun x => x.username == normalize_username cfgUser) with
    | none =>
      simp only [hf]
      rw [insKey users (normalize_username cfgUser)
        { username := normalize_username cfgUser,
          passwordHash := hash_password (if p1 = "" then "admin123" else p1),
          role := "admin", isActive := true } rfl hf]
    | some w => simp [hf]
  · intro users cfgUser cfgPass genPass u hu hname
    unfold ensure_admin_exists_v2
    cases hf : users.find? (fun x => x.username == normalize_username cfgUser) with
    | none => exact absurd hf (key users _ u hu hname)
    | some w => simp [hf]
  · intro users cfgUser p1 p2 g1 g2
    unfold ensure_admin_exists_v2
    cases hf : users.find? (fun x => x.username == normalize_username cfgUser) with
    | none =>
      simp only [hf]
      rw [insKey users (normalize_username cfgUser)
        { username := normalize_username cfgUser,
          passwordHash := hash_password (if p1 = "" then g1 else p1),
          role := "admin", isActive := true } rfl hf]
    | some w => simp [hf]

/-- Witness for claim C8: re-running the bootstrap with a different
configured password against a table that already holds the admin row. -/
theorem admin_bootstrap_idempotent_witness :
    exAdminRow ∈ [exAdminRow] ∧
    exAdminRow.username = normalize_username " Admin " ∧
    ensure_admin_exists [exAdminRow] " Admin " "differentpassword" = [exAdminRow] := by
  refine ⟨List.mem_singleton_self exAdminRow, rfl, ?_⟩
  exact admin_bootstrap_idempotent.1 [exAdminRow] " Admin " "differentpassword"
    exAdminRow (List.mem_singleton_self exAdminRow) rfl

/-- Claim C9: provided the queue held at most `maxSize` (default 100) entries
when loaded, a push never leaves more than `maxSize` entries; a push onto a
full queue drops the oldest entry and appends the new one, keeping the order
of the rest, and a push onto a non-full queue simply appends. -/
theorem offline_queue_bounded {α : Type} (q : List α) (maxSize : Nat) (hb : α)
    (hmax : 0 < maxSize) (hlen : q.length ≤ maxSize) :
    (OfflineQueue.push q maxSize hb).length ≤ maxSize ∧
    (q.length = maxSize → OfflineQueue.push q maxSize hb = q.tail ++ [hb]) ∧
    (q.length < maxSize → OfflineQueue.push q maxSize hb = q ++ [hb]) := by
  unfold OfflineQueue.push
  refine ⟨?_, ?_, ?_⟩
  · split_ifs with h
    · have hq : q.length = maxSize := le_antisymm hlen h
      rw [List.length_append, List.length_tail]
      simp
      omega
    · rw [List.length_append]
      simp
      omega
  · intro h
    rw [if_pos (le_of_eq h.symm)]
  · intro h
    rw [if_neg (not_le.mpr h)]

/-- Witness for claim C9: pushing 40 onto the full queue of 10, 20, 30. -/
theorem offline_queue_bounded_witness :
    0 < 3 ∧ [10, 20, 30].length ≤ 3 ∧
    (OfflineQueue.push [10, 20, 30] 3 40).length ≤ 3 ∧
    ([10, 20, 30].length = 3 → OfflineQueue.push [10, 20, 30] 3 40 = [20, 30, 40]) := by
  have h := offline_queue_bounded [10, 20, 30] 3 40 (by decide) (by decide)
  exact ⟨by decide, by decide, h.1, fun _ => h.2.1 (by decide)⟩

/-- Claim C10: re-registering an already-known machine always generates a
fresh agent token and overwrites the stored token digest of the machine's
non-revoked token row; consequently the previously issued token no longer
resolves and a heartbeat presenting it fails with 401. -/
theorem reregistration_rotates_token (db : RegDB)
    (mac hostname oldRaw freshRaw : String) (newMid : Nat)
    (m : RegMachine) (t : AgentTokenRow)
    (hmac : db.machines.filter (fun x => x.macAddress == mac) = [m])
    (htok : db.agentTokens.filter
      (fun r => r.machineId == m.mid && r.revoked == false) = [t])
    (hold : db.agentTokens.filter
      (fun r => r.tokenHash == hash_agent_token oldRaw && r.revoked == false) = [t])
    (hfresh : hash_agent_token freshRaw ≠ hash_agent_token oldRaw) :
    ∃ db1, register_agent db mac hostname freshRaw newMid = .ok (db1, m.mid, true) ∧
      db1.agentTokens.filter (fun r => r.machineId == m.mid && r.revoked == false) =
        [{ t with tokenHash := hash_agent_token freshRaw }] ∧
      get_current_machine db1 oldRaw =
        .unauthorized "Agent token is invalid or revoked." := by
  have h1 : scalarOneOrNone (db.machines.filter (fun x => x.macAddress == mac)) =
      .ok (some m) := by rw [hmac]; rfl
  have h2 : scalarOneOrNone (db.agentTokens.filter
      (fun r => r.machineId == m.mid && r.revoked == false)) = .ok (some t) := by
    rw [htok]; rfl
  have htmem : t ∈ db.agentTokens.filter
      (fun r => r.machineId == m.mid && r.revoked == false) := by
    rw [htok]; exact List.mem_singleton_self t
  have htpred := List.of_mem_filter htmem
  have hres : register_agent db mac hostname freshRaw newMid =
      .ok ({ machines := db.machines.map (fun x =>
               if x.mid == m.mid then
                 { mid := x.mid, macAddress := x.macAddress,
                   hostname := hostname, status := "online" }
               else x),
             agentTokens := db.agentTokens.map (fun r =>
               if r.machineId == m.mid && r.revoked == false then
                 { machineId := r.machineId,
                   tokenHash := hash_agent_token freshRaw,
                   revoked := r.revoked }
               else r) }, m.mid, true) := by
    unfold register_agent
    rw [h1]
    simp only [h2]
  have hfilter : (db.agentTokens.map (fun r =>
      if r.machineId == m.mid && r.revoked == false then
        { r with tokenHash := hash_agent_token freshRaw }
      else r)).filter (fun r => r.machineId == m.mid && r.revoked == false) =
      [{ t with tokenHash := hash_agent_token freshRaw }] := by
    rw [filter_map_comm _ _ _ ?hg ?hid]
    case hg =>
      intro a
      by_cases hp : (a.machineId == m.mid && a.revoked == false) = true
      · simp only [if_pos hp]
      · simp only [if_neg hp]
    case hid =>
      intro a hp
      simp only [hp, Bool.false_eq_true, if_false]
    rw [htok]
    simp only [List.map_cons, List.map_nil, if_pos htpred]
  have hnone : ((db.agentTokens.map (fun r =>
      if r.machineId == m.mid && r.revoked == false then
        { r with tokenHash := hash_agent_token freshRaw }
      else r)).filter (fun r =>
        r.tokenHash == hash_agent_token oldRaw && r.revoked == false)) = [] := by
    apply List.filter_eq_nil_iff.mpr
    intro r hr hcon
    obtain ⟨r0, hr0mem, hr0eq⟩ := List.mem_map.mp hr
    have hcand := (Bool.and_eq_true _ _).mp hcon
    by_cases hp : (r0.machineId == m.mid && r0.revoked == false) = true
    · rw [← hr0eq] at hcand
      simp only [if_pos hp] at hcand
      exact hfresh (eq_of_beq hcand.1)
    · rw [← hr0eq] at hcon
      simp only [if_neg hp] at hcon
      have hr0old : r0 ∈ db.agentTokens.filter
          (fun r => r.tokenHash == hash_agent_token oldRaw && r.revoked == false) :=
        List.mem_filter.mpr ⟨hr0mem, hcon⟩
      rw [hold] at hr0old
      have hr0t : r0 = t := List.mem_singleton.mp hr0old
      rw [hr0t] at hp
      exact hp htpred
  refine ⟨_, hres, hfilter, ?_⟩
  unfold get_current_machine
  simp only [hnone]
  rfl

/-- Witness for claim C10 at a concrete one-machine registry. -/
theorem reregistration_rotates_token_witness :
    (exRegDB.machines.filter (fun x => x.macAddress == "AA:BB:CC:DD:EE:FF") =
      [exRegMachine]) ∧
    (exRegDB.agentTokens.filter
      (fun r => r.machineId == exRegMachine.mid && r.revoked == false) =
      [exRegToken]) ∧
    (exRegDB.agentTokens.filter
      (fun r => r.tokenHash == hash_agent_token "oldtok" && r.revoked == false) =
      [exRegToken]) ∧
    (hash_agent_token "newtok" ≠ hash_agent_token "oldtok") ∧
    (∃ db1, register_agent exRegDB "AA:BB:CC:DD:EE:FF" "w1" "newtok" 2 =
        .ok (db1, exRegMachine.mid, true) ∧
      db1.agentTokens.filter
        (fun r => r.machineId == exRegMachine.mid && r.revoked == false) =
        [{ exRegToken with tokenHash := hash_agent_token "newtok" }] ∧
      get_current_machine db1 "oldtok" =
        .unauthorized "Agent token is invalid or revoked.") :=
  ⟨by decide, by decide, by decide, by decide,
    reregistration_rotates_token exRegDB "AA:BB:CC:DD:EE:FF" "w1" "oldtok" "newtok"
      2 exRegMachine exRegToken (by decide) (by decide) (by decide) (by decide)⟩
